import Mathlib

set_option maxRecDepth 10000
set_option maxHeartbeats 2000000

/-!
# Verification of the fashion_trend_assistant web-research pipeline

Shallow embedding of `src/trend_assistant/clients/research_client.py` and
`src/trend_assistant/services/workflow_service.py`, with theorems settling
the claims about the Content Extractor, Page Fetcher, Scrape Orchestrator,
URL Filter and Batch Runner.

Embedding conventions:
* HTML documents are modelled as parse trees (`Node`), the view the code
  obtains from BeautifulSoup's `html.parser`; the only element attributes
  modelled are the ones the code inspects (tag name, `id`, `class` list,
  `role`).
* Python strings are Lean `String`s / `List Char`; `str.strip`, `re.sub`
  and `str.lower` are embedded over ASCII whitespace, which is what the
  constructed inputs use.
* `async` control flow is embedded by explicit outcome values: a coroutine
  that can raise is a `Except Unit α`; the browser, network and timing
  environment is an explicit oracle record.
-/

namespace TrendAssistant

/-- Python `\s` / `str.strip` whitespace characters (ASCII part). -/
def pyIsSpace (c : Char) : Bool :=
  c = ' ' ∨ c = '\t' ∨ c = '\n' ∨ c = '\r' ∨ c = Char.ofNat 11 ∨ c = Char.ofNat 12

/-- `str.lstrip()` on a character list. -/
def pyDropLeading (l : List Char) : List Char :=
  l.dropWhile pyIsSpace

/-- `str.rstrip()` on a character list: remove the trailing whitespace run.
(The recursive result is consumed through a single `match` so that kernel
reduction shares it.) -/
def pyDropTrailing : List Char → List Char
  | [] => []
  | c :: cs =>
    match pyDropTrailing cs with
    | [] => if pyIsSpace c then [] else [c]
    | d :: ds => c :: d :: ds

/-- `str.strip()` on a character list. -/
def pyStrip (l : List Char) : List Char :=
  pyDropTrailing (pyDropLeading l)

/-- `re.sub(r"\s+", " ", ·)`: replace every maximal whitespace run by a
single space.  The flag records whether the previous character was
whitespace (in which case the run's single space was already emitted). -/
def collapseAux : List Char → Bool → List Char
  | [], _ => []
  | c :: cs, prev =>
    if pyIsSpace c then
      if prev then collapseAux cs true else ' ' :: collapseAux cs true
    else
      c :: collapseAux cs false

/-- `re.sub(r"\s+", " ", text).strip()` — line 186 of research_client.py. -/
def collapseAndStrip (l : List Char) : List Char :=
  pyStrip (collapseAux l false)

/-- The alternatives of the junk-phrase regex
`(Share:|Follow us:|Subscribe|Newsletter)` (line 187). -/
def junkPhrases : List (List Char) :=
  ["Share:".toList, "Follow us:".toList, "Subscribe".toList, "Newsletter".toList]

/-- Case-insensitive prefix test (the regex runs with `re.IGNORECASE`). -/
def ciLeads : List Char → List Char → Bool
  | [], _ => true
  | _ :: _, [] => false
  | p :: ps, c :: cs => (p.toLower = c.toLower) ∧ ciLeads ps cs

/-- At the current position, the length of the first junk-phrase alternative
that matches (regex alternation tries the alternatives left to right). -/
def matchJunkPhrase (l : List Char) : Option Nat :=
  (junkPhrases.find? fun p => ciLeads p l).map List.length

/-- One left-to-right pass of `re.sub(phrase-alternation, "", ·)`: at each
position, if an alternative matches, drop it and resume after the match;
otherwise keep the character.  The fuel is the input length; every step
consumes at least one character. -/
def removeJunkPhrasesAux : Nat → List Char → List Char
  | 0, _ => []
  | _ + 1, [] => []
  | n + 1, c :: cs =>
    match matchJunkPhrase (c :: cs) with
    | some k => removeJunkPhrasesAux n ((c :: cs).drop k)
    | none => c :: removeJunkPhrasesAux n cs

/-- `re.sub(r"(Share:|Follow us:|Subscribe|Newsletter)", "", ·, re.IGNORECASE)`
(lines 187–192). -/
def removeJunkPhrases (l : List Char) : List Char :=
  removeJunkPhrasesAux l.length l

/-! ## The parsed HTML document model -/

mutual

/-- A node of the BeautifulSoup parse tree.  An element records the pieces
the extractor's selectors inspect: tag name, `id` attribute, `class` list
and `role` attribute.  (Children form a `Forest`, a copy of `List Node`
made mutually inductive so that every traversal below is structurally
recursive and therefore evaluates inside the kernel.) -/
inductive Node where
  | text (s : String)
  | elem (tag : String) (idAttr : Option String) (classes : List String)
      (role : Option String) (children : Forest)

/-- A sequence of sibling parse-tree nodes. -/
inductive Forest where
  | nil
  | cons (head : Node) (tail : Forest)

end

/-- Build a forest from a list of nodes (fixture convenience). -/
def Forest.ofList : List Node → Forest
  | [] => .nil
  | n :: ns => .cons n (Forest.ofList ns)

/-- The CSS selectors the extractor uses: `.c`, `#i`, `tag`,
`[role="v"]` and `tag.c`. -/
inductive Selector where
  | byClass (c : String)
  | byId (i : String)
  | byTag (t : String)
  | byRole (v : String)
  | byTagClass (t c : String)
deriving Repr, DecidableEq

/-- Whether an element with the given data matches a selector. -/
def selMatches (sel : Selector) (tag : String) (idAttr : Option String)
    (classes : List String) (role : Option String) : Bool :=
  match sel with
  | .byClass c => classes.contains c
  | .byId i => idAttr = some i
  | .byTag t => tag = t
  | .byRole v => role = some v
  | .byTagClass t c => tag = t ∧ classes.contains c

mutual

/-- `select_one` on a single subtree: first matching element in document
(pre-)order. -/
def selectOneNode (sel : Selector) : Node → Option Node
  | .text _ => none
  | .elem tag idAttr classes role children =>
    if selMatches sel tag idAttr classes role then
      some (.elem tag idAttr classes role children)
    else
      selectOneIn sel children

/-- `soup.select_one` over a forest (the soup's top-level contents). -/
def selectOneIn (sel : Selector) : Forest → Option Node
  | .nil => none
  | .cons n ns =>
    match selectOneNode sel n with
    | some m => some m
    | none => selectOneIn sel ns

end

mutual

/-- All text-node strings of a subtree, in document order
(BeautifulSoup's `_all_strings`). -/
def nodeStrings : Node → List String
  | .text s => [s]
  | .elem _ _ _ _ children => forestStrings children

/-- All text-node strings of a forest, in document order. -/
def forestStrings : Forest → List String
  | .nil => []
  | .cons n ns => nodeStrings n ++ forestStrings ns

end

/-- Strip each string and drop the ones that become empty
(`get_text(..., strip=True)` does this to every string). -/
def strippedStrings (ss : List String) : List (List Char) :=
  ss.filterMap fun s =>
    let t := pyStrip s.toList
    if t.isEmpty then none else some t

/-- Join character lists with a separator character list. -/
def joinWithSep (sep : List Char) : List (List Char) → List Char
  | [] => []
  | [s] => s
  | s :: t :: rest => s ++ sep ++ joinWithSep sep (t :: rest)

/-- `get_text(separator=" ", strip=True)` over a forest (line 185). -/
def getTextSpace (ns : Forest) : List Char :=
  joinWithSep [' '] (strippedStrings (forestStrings ns))

/-- `get_text(strip=True)` over a forest (default empty separator), used by
the selector-acceptance length check (line 129). -/
def getTextStrip (ns : Forest) : List Char :=
  joinWithSep [] (strippedStrings (forestStrings ns))

/-- `len(el.get_text(strip=True))` for an element node (0 for a bare text
node, which `select_one` never returns). -/
def nodeTextLen : Node → Nat
  | .text _ => 0
  | .elem _ _ _ _ children => (getTextStrip children).length

/-- The children of an element node (the subtree `select`/`get_text`
operate on when the element is the target). -/
def nodeChildren : Node → Forest
  | .text _ => .nil
  | .elem _ _ _ _ children => children

/-- The content-container selectors, in priority order (lines 103–124). -/
def contentSelectors : List Selector :=
  [.byClass "blog-post-content", .byClass "trend-analysis",
   .byClass "fashion-content", .byClass "post-content",
   .byClass "article-content", .byClass "blog-content",
   .byTag "article", .byTag "main", .byRole "main",
   .byClass "main-content", .byId "main-content", .byId "content",
   .byClass "content", .byClass "article-body", .byClass "post-body",
   .byClass "entry-content", .byClass "blog-post", .byClass "container",
   .byClass "wrapper", .byId "wrapper"]

/-- The `for selector in content_selectors` loop (lines 125–131):
`main_content = soup.select_one(selector)` each iteration, `break` when the
match's stripped text length exceeds 300.  After a run with no break,
`main_content` keeps the LAST iteration's value (the `#wrapper` lookup),
whether or not that value passed the length check. -/
def selectLoop (doc : Forest) : List Selector → Option Node
  | [] => none
  | [sel] => selectOneIn sel doc
  | sel :: sel₂ :: rest =>
    match selectOneIn sel doc with
    | some el =>
      if 300 < nodeTextLen el then some el
      else selectLoop doc (sel₂ :: rest)
    | none => selectLoop doc (sel₂ :: rest)

/-- `target_soup = main_content if main_content else soup` (line 133),
viewed as the forest the later passes traverse: the element's children when
an element was picked, the whole document otherwise. -/
def targetOf (doc : Forest) : Forest :=
  match selectLoop doc contentSelectors with
  | some el => nodeChildren el
  | none => doc

/-- The junk selectors removed before text extraction (lines 135–174). -/
def junkSelectors : List Selector :=
  [.byClass "comments", .byId "comments", .byClass "comment-section",
   .byClass "social-share", .byClass "social-sharing", .byClass "share-buttons",
   .byClass "advertisement", .byClass "ads", .byClass "ad-container",
   .byClass "newsletter-signup", .byClass "newsletter", .byClass "email-signup",
   .byClass "promo", .byClass "promotion", .byClass "banner-ad",
   .byClass "modal", .byClass "popup", .byClass "overlay",
   .byClass "cookie-banner", .byClass "cookie-notice", .byClass "gdpr-notice",
   .byClass "sidebar", .byId "sidebar", .byClass "widget", .byClass "widgets",
   .byClass "related-posts", .byClass "related-articles", .byClass "recommended",
   .byClass "more-stories", .byClass "trending", .byClass "author-bio",
   .byClass "author-info", .byClass "tags", .byClass "categories",
   .byClass "post-meta", .byClass "contact-form", .byClass "search-form",
   .byTagClass "form" "search"]

mutual

/-- Remove (decompose) every element matching the predicate, subtrees
included, from a subtree's children. -/
def removeByNode (p : Node → Bool) : Node → Node
  | .text s => .text s
  | .elem tag idAttr classes role children =>
    .elem tag idAttr classes role (removeByForest p children)

/-- Remove every element matching the predicate from a forest. -/
def removeByForest (p : Node → Bool) : Forest → Forest
  | .nil => .nil
  | .cons (.text s) ns => .cons (.text s) (removeByForest p ns)
  | .cons (.elem tag idAttr classes role children) ns =>
    if p (.elem tag idAttr classes role children) then
      removeByForest p ns
    else
      .cons (.elem tag idAttr classes role (removeByForest p children))
        (removeByForest p ns)

end

/-- Whether a node is an element matching a selector. -/
def nodeMatchesSel (sel : Selector) : Node → Bool
  | .text _ => false
  | .elem tag idAttr classes role _ => selMatches sel tag idAttr classes role

/-- Whether a node is an element with one of the given tag names. -/
def nodeHasTag (tags : List String) : Node → Bool
  | .text _ => false
  | .elem tag _ _ _ _ => tags.contains tag

/-- The structural tags decomposed wholesale (lines 179–182). -/
def structuralJunkTags : List String :=
  ["script", "style", "noscript", "nav", "aside", "footer", "header"]

/-- Junk removal (lines 175–182): decompose each junk selector's matches in
order, then the structural tags. -/
def removeJunk (ns : Forest) : Forest :=
  removeByForest (nodeHasTag structuralJunkTags)
    (junkSelectors.foldl (fun acc sel => removeByForest (nodeMatchesSel sel) acc) ns)

/-- The whitespace-collapsed, stripped text of the selected target, before
junk-phrase removal (`cleaned_text` right after line 186). -/
def collapsedTextOf (doc : Forest) : List Char :=
  collapseAndStrip (getTextSpace (removeJunk (targetOf doc)))

/-- `cleaned_text` after the junk-phrase `re.sub` (lines 187–192). -/
def cleanedTextOf (doc : Forest) : List Char :=
  removeJunkPhrases (collapsedTextOf doc)

/-- `_extract_text_content_enhanced` (lines 100–200): select a content
container, strip junk, normalize whitespace, drop the junk phrases, reject
results shorter than 200 characters and truncate to 50000.  The `url`
argument is only logged by the source. -/
def extractTextContentEnhanced (doc : Forest) (url : String) : String :=
  if (cleanedTextOf doc).length < 200 then ""
  else ⟨(cleanedTextOf doc).take 50000⟩

/-! ## The defensive route handler (lines 203–229) -/

/-- What the route handler does with an intercepted request. -/
inductive RouteAction where
  | abort
  | cont
deriving Repr, DecidableEq

/-- The resource types the handler blocks: the set literal
`{"image", "font", "media", "websocket"}` at line 207. -/
def blockedResourceTypes : List String :=
  ["image", "font", "media", "websocket"]

/-- `_defensive_route_handler` (lines 203–210), as a function of the
request's resource type: abort when the type is in the blocked set,
continue otherwise.  (The handler's `except` clause only concerns errors
raised by `route.abort()`/`route.continue_()` on a closed page and does not
change which requests are blocked.) -/
def defensiveRouteHandler (resourceType : String) : RouteAction :=
  if blockedResourceTypes.contains resourceType then .abort else .cont

/-! ## The Page Fetcher (`_scrape_single_url_enhanced`, `_scrape_url_content`) -/

/-- A fetched page, seen both as the raw HTML string the fetcher length-tests
and as the parse tree BeautifulSoup produces from it. -/
structure Html where
  raw : String
  doc : Forest

/-- Outcome of one navigation strategy's `page.goto` + `page.content()`
(lines 66–69): either a Playwright error/timeout, or a loaded page. -/
inductive NavOutcome where
  | raises
  | loaded (page : Html)

/-- The browser/network environment of one `_scrape_single_url_enhanced`
call.  `launchOk` — browser/context/page creation succeeds; `nav1..nav3` —
the outcome of each of the three navigation strategies; `cookieReread` —
the `page.content()` re-read after cookie-banner handling (line 257),
`none` when that phase raises (so `html_content` keeps the strategy's
value); `extractRaises` — whether parsing/extraction (line 284) raises. -/
structure FetchWorld where
  launchOk : Bool
  nav1 : NavOutcome
  nav2 : NavOutcome
  nav3 : NavOutcome
  cookieReread : Option Html
  extractRaises : Bool

/-- The strategy outcomes in the order the strategies list tries them. -/
def FetchWorld.strategies (w : FetchWorld) : List NavOutcome :=
  [w.nav1, w.nav2, w.nav3]

/-- `_scrape_with_fallback_strategy` (lines 54–77): try each strategy in
order; accept the first loaded page longer than 500 bytes; a strategy error
re-raises only on the last strategy; a run that exhausts all strategies
without error returns the empty page. -/
def fallbackLoop : List NavOutcome → Except Unit Html
  | [] => .ok ⟨"", .nil⟩
  | o :: rest =>
    match o with
    | .loaded page =>
      if 500 < page.raw.length then .ok page else fallbackLoop rest
    | .raises => if rest.isEmpty then .error () else fallbackLoop rest

/-- How many `page.goto` calls the fallback loop performs. -/
def fallbackAttempts : List NavOutcome → Nat
  | [] => 0
  | o :: rest =>
    match o with
    | .loaded page =>
      if 500 < page.raw.length then 1 else 1 + fallbackAttempts rest
    | .raises => if rest.isEmpty then 1 else 1 + fallbackAttempts rest

/-- What one fetch call did: the value it returns (or the exception it
lets escape), whether a browser session was created, and how many
navigation attempts were made. -/
structure FetchTrace where
  result : Except Unit String
  browserLaunched : Bool
  navAttempts : Nat

/-- The value `_scrape_single_url_enhanced` (lines 232–284) produces.  The
`try` block catches every exception up to line 259 (turning it into empty
`html_content`), but the extraction call at line 284 sits outside the
`try`, so an extraction error escapes to the caller.  Note the function
never inspects `url`: there is no URL-scheme validation anywhere on this
path. -/
def scrapeSingleResult (w : FetchWorld) (url : String) : Except Unit String :=
  if w.launchOk then
    match fallbackLoop w.strategies with
    | .error _ => .ok ""
    | .ok page =>
      if page.raw.isEmpty then .ok ""
      else
        let reread := match w.cookieReread with
          | some h => h
          | none => page
        if reread.raw.isEmpty then .ok ""
        else if w.extractRaises then .error ()
        else .ok (extractTextContentEnhanced reread.doc url)
  else .ok ""

/-- `_scrape_single_url_enhanced` with its observable side effects: the
produced value plus whether a browser session was created and how many
navigation attempts were made. -/
def scrapeSingleUrlEnhanced (w : FetchWorld) (url : String) : FetchTrace :=
  ⟨scrapeSingleResult w url, w.launchOk,
    if w.launchOk then fallbackAttempts w.strategies else 0⟩

/-- `_scrape_url_content` (lines 287–293): a 30-second total budget around
the fetch; only `asyncio.TimeoutError` is caught (yielding `""`), any other
exception keeps propagating. -/
def scrapeUrlContent (w : FetchWorld) (timedOut : Bool) (url : String) :
    Except Unit String :=
  if timedOut then .ok "" else scrapeSingleResult w url

/-! ## The URL Filter (lines 321–345) -/

/-- Exact-match leading-segment test on character lists. -/
def exactLeads : List Char → List Char → Bool
  | [], _ => true
  | _ :: _, [] => false
  | p :: ps, c :: cs => p = c ∧ exactLeads ps cs

/-- Python `needle in hay` substring containment on character lists. -/
def containsSeq (needle : List Char) : List Char → Bool
  | [] => exactLeads needle []
  | c :: cs => exactLeads needle (c :: cs) || containsSeq needle cs

/-- Python `str.lower()` (character-wise; the code's URLs are ASCII). -/
def pyToLower (s : String) : String :=
  ⟨s.toList.map Char.toLower⟩

/-- Python `hay.endswith(suffix)`. -/
def strEndsWith (hay suffix : String) : Bool :=
  exactLeads suffix.toList.reverse hay.toList.reverse

/-- Python `needle in hay` on strings. -/
def strContains (hay needle : String) : Bool :=
  containsSeq needle.toList hay.toList

/-- `ignored_extensions` (lines 321–331). -/
def ignoredExtensions : List String :=
  [".pdf", ".txt", ".zip", ".jpg", ".jpeg", ".png", ".gif", ".docx", ".xlsx"]

/-- `ignored_domains` (lines 332–339). -/
def ignoredDomains : List String :=
  ["pinterest.com", "amazon.com", "instagram.com", "facebook.com",
   "twitter.com", "youtube.com"]

/-- The URL Filter (the comprehension at lines 340–345): keep a URL unless
its lowercase form ends with an ignored extension or contains an ignored
domain substring. -/
def urlFilter (exts doms : List String) (urls : List String) : List String :=
  urls.filter fun url =>
    !(exts.any fun ext => strEndsWith (pyToLower url) ext) &&
    !(doms.any fun d => strContains (pyToLower url) d)

/-! ## The Scrape Orchestrator (`gather_research_documents`, lines 296–369) -/

/-- Python set-comprehension union of the per-query URL lists, abstracted
as first-occurrence deduplication (set iteration order is arbitrary; every
claim here is order-insensitive). -/
def dedupFirstAux : List String → List String → List String
  | _, [] => []
  | seen, u :: us =>
    if seen.contains u then dedupFirstAux seen us
    else u :: dedupFirstAux (u :: seen) us

/-- Deduplicate keeping first occurrences. -/
def dedupFirst (l : List String) : List String := dedupFirstAux [] l

/-- The acceptance test `isinstance(c, str) and c` of line 365, applied to
one task's outcome: a returned non-empty string is kept, an empty string or
a raised exception is dropped. -/
def acceptedContent : Except Unit String → Option String
  | .ok s => if s.isEmpty then none else some s
  | .error _ => none

/-- `asyncio.gather(*scraping_tasks, return_exceptions=True)` followed by
`[c for c in scraped_contents if isinstance(c, str) and c]`
(lines 363–365): a raised exception becomes a value at its task's position
and is then filtered out, as is every empty string. -/
def gatherScrapedContents (rs : List (Except Unit String)) : List String :=
  rs.filterMap acceptedContent

/-- The external environment of one `gather_research_documents` run:
whether the search-service handle could be built, each query's search
results (`_sync_google_search` absorbs its own errors into `[]`), and each
URL's browser world and total-timeout flag. -/
structure ResearchWorld where
  serviceOk : Bool
  searchResults : String → List String
  fetchWorld : String → FetchWorld
  timedOut : String → Bool

/-- `scrape_with_semaphore` (lines 358–360), as the value it produces for
one URL (the semaphore bounds timing, not values). -/
def scrapeWithSemaphore (w : ResearchWorld) (url : String) : Except Unit String :=
  scrapeUrlContent (w.fetchWorld url) (w.timedOut url) url

/-- `all_urls` (line 317): the union of every query's search results
(Python set comprehension, embedded as first-occurrence deduplication). -/
def allCandidateUrls (w : ResearchWorld) (queries : List String) : List String :=
  dedupFirst ((queries.map w.searchResults).foldr (· ++ ·) [])

/-- `filtered_urls` (lines 340–345). -/
def filteredCandidateUrls (w : ResearchWorld) (queries : List String) :
    List String :=
  urlFilter ignoredExtensions ignoredDomains (allCandidateUrls w queries)

/-- `gather_research_documents` (lines 296–369): early-exit on no queries,
failed service construction, no URLs or no surviving URLs; otherwise scrape
every filtered URL and keep the non-empty string results. -/
def gatherResearchDocuments (w : ResearchWorld) (queries : List String) :
    List String :=
  if queries.isEmpty then []
  else if !w.serviceOk then []
  else if (allCandidateUrls w queries).isEmpty then []
  else if (filteredCandidateUrls w queries).isEmpty then []
  else
    gatherScrapedContents
      ((filteredCandidateUrls w queries).map (scrapeWithSemaphore w))

/-! ## The Batch Runner (`_run_tasks_in_batches`, workflow_service.py 150–167) -/

/-- `asyncio.gather(*batch)` with `return_exceptions` left at its default:
all results in task order when every task succeeds; a raised exception
propagates out of the `await` (the embedding deterministically picks the
first failing task in list order; the source propagates whichever failure
completes first). -/
def gatherStrict {α : Type} : List (Except String α) → Except String (List α)
  | [] => .ok []
  | r :: rs =>
    match r with
    | .error e => .error e
    | .ok a =>
      match gatherStrict rs with
      | .error e => .error e
      | .ok l => .ok (a :: l)

/-- `tasks[i : i + batch_size]` chunking of the task list; the fuel is the
list length, enough whenever the batch size is positive. -/
def chunkAux {α : Type} : Nat → Nat → List α → List (List α)
  | 0, _, _ => []
  | _ + 1, _, [] => []
  | n + 1, bs, x :: xs => (x :: xs).take bs :: chunkAux n bs ((x :: xs).drop bs)

/-- The batches the `for i in range(0, len(tasks), batch_size)` loop forms. -/
def chunkList {α : Type} (bs : Nat) (l : List α) : List (List α) :=
  chunkAux l.length bs l

/-- The Batch Runner's loop body: gather each batch in turn, extending the
accumulated results; a batch's exception propagates immediately. -/
def runBatches {α : Type} : List (List (Except String α)) → Except String (List α)
  | [] => .ok []
  | b :: bs =>
    match gatherStrict b with
    | .error e => .error e
    | .ok l =>
      match runBatches bs with
      | .error e => .error e
      | .ok rest => .ok (l ++ rest)

/-- `_run_tasks_in_batches` (lines 150–167).  `delaySeconds` (the
inter-batch sleep) does not affect the values produced. -/
def runTasksInBatches {α : Type} (tasks : List (Except String α))
    (batchSize : Nat) (delaySeconds : Nat) : Except String (List α) :=
  runBatches (chunkList batchSize tasks)

/-! ## The concurrency gate (`asyncio.Semaphore(4)`, lines 356–360) -/

/-- The argument of `asyncio.Semaphore(4)` at line 356. -/
def scrapeConcurrencyLimit : Nat := 4

/-- The phase of one per-URL scrape task: not yet admitted by the
semaphore, inside the `async with semaphore` block, or finished. -/
inductive TaskPhase where
  | pending
  | active
  | finished
deriving Repr, DecidableEq

/-- How many tasks are inside the semaphore-guarded block. -/
def countActive : List TaskPhase → Nat
  | [] => 0
  | .active :: t => countActive t + 1
  | _ :: t => countActive t

/-- One scheduler step of the scraping stage: the semaphore admits a
pending task only while fewer than `scrapeConcurrencyLimit` tasks hold it;
an active task may finish (releasing its permit) at any time.  Every
interleaving of task completions is a path in this relation. -/
inductive ScrapeStep : List TaskPhase → List TaskPhase → Prop where
  | acquire (s : List TaskPhase) (i : Nat) (hp : s.get? i = some .pending)
      (hc : countActive s < scrapeConcurrencyLimit) :
      ScrapeStep s (s.set i .active)
  | release (s : List TaskPhase) (i : Nat) (ha : s.get? i = some .active) :
      ScrapeStep s (s.set i .finished)

/-- The states reachable while `gather_research_documents` runs `n` scrape
tasks, starting from all tasks pending. -/
inductive ScrapeReach (n : Nat) : List TaskPhase → Prop where
  | init : ScrapeReach n (List.replicate n .pending)
  | step {s t : List TaskPhase} : ScrapeReach n s → ScrapeStep s t →
      ScrapeReach n t

/-! ## Claim-side definitions -/

/-- Modelled from the spec: the resource types the spec says the fetcher
blocks (`images, stylesheets, fonts, media, websockets`). -/
def specBlockedResourceTypes : List String :=
  ["image", "stylesheet", "font", "media", "websocket"]

/-- The cleaned text the pipeline would produce with the full document as
target. -/
def fullCleanedTextOf (doc : Forest) : List Char :=
  removeJunkPhrases (collapseAndStrip (getTextSpace (removeJunk doc)))

/-- Modelled from the spec: the extraction pipeline applied to the full
document — what the spec says happens when no content-container selector
yields a long-enough match (junk removal and text extraction on the whole
soup). -/
def extractFromFullDocument (doc : Forest) : String :=
  if (fullCleanedTextOf doc).length < 200 then ""
  else ⟨(fullCleanedTextOf doc).take 50000⟩

/-- No content-container selector matches an element whose stripped text
exceeds the 300-character acceptance bar (the claim C5 premise). -/
def selectorPassesNone (doc : Forest) : Bool :=
  contentSelectors.all fun sel =>
    match selectOneIn sel doc with
    | some el => nodeTextLen el ≤ 300
    | none => true

/-- `contentSelectors` without its final `#wrapper` entry. -/
def contentSelectorsInit : List Selector :=
  [.byClass "blog-post-content", .byClass "trend-analysis",
   .byClass "fashion-content", .byClass "post-content",
   .byClass "article-content", .byClass "blog-content",
   .byTag "article", .byTag "main", .byRole "main",
   .byClass "main-content", .byId "main-content", .byId "content",
   .byClass "content", .byClass "article-body", .byClass "post-body",
   .byClass "entry-content", .byClass "blog-post", .byClass "container",
   .byClass "wrapper"]

/-- A run of two or more consecutive whitespace characters occurs. -/
def hasWSRun : List Char → Bool
  | a :: b :: t => (pyIsSpace a && pyIsSpace b) || hasWSRun (b :: t)
  | _ => false

/-- The first character, if any, is not whitespace. -/
def headNotWS : List Char → Bool
  | [] => true
  | c :: _ => !pyIsSpace c

/-- The last character, if any, is not whitespace. -/
def lastNotWS : List Char → Bool
  | [] => true
  | [c] => !pyIsSpace c
  | _ :: c :: t => lastNotWS (c :: t)

/-- `Except.isOk`-style discriminator. -/
def exceptIsOk {ε α : Type} : Except ε α → Bool
  | .ok _ => true
  | .error _ => false

/-- The successful results of a task list, in order. -/
def okValues {ε α : Type} (l : List (Except ε α)) : List α :=
  l.filterMap fun t =>
    match t with
    | .ok a => some a
    | .error _ => none

/-- Sequencing of two gathered results: the first error wins, otherwise
the result lists are concatenated. -/
def exceptSeqAppend {α : Type} :
    Except String (List α) → Except String (List α) → Except String (List α)
  | .error e, _ => .error e
  | .ok _, .error e => .error e
  | .ok la, .ok lb => .ok (la ++ lb)

/-! ## Test fixtures -/

/-- A string of `n` copies of `a`. -/
def repChar (n : Nat) : String := ⟨List.replicate n 'a'⟩

/-- A document that is one long plain text node. -/
def docPlain : Forest := .cons (.text (repChar 250)) .nil

/-- A document whose text contains the junk phrase `Subscribe`. -/
def docSubscribe : Forest :=
  .cons (.text (repChar 120 ++ " Subscribe " ++ repChar 120)) .nil

/-- A document with a short `#wrapper` element and long text outside it. -/
def docWrapper : Forest :=
  .cons (.elem "div" (some "wrapper") [] none (.cons (.text "short stuff") .nil))
    (.cons (.text (repChar 400)) .nil)

/-- A loaded page long enough to pass the 500-byte navigation sanity check,
parsing to `docPlain`. -/
def goodHtml : Html := ⟨repChar 600, docPlain⟩

/-- A browser world where the first navigation strategy succeeds. -/
def fetchOkWorld : FetchWorld :=
  { launchOk := true, nav1 := .loaded goodHtml, nav2 := .raises,
    nav3 := .raises, cookieReread := some goodHtml, extractRaises := false }

/-- A browser world where the page loads but extraction raises. -/
def fetchRaiseWorld : FetchWorld :=
  { launchOk := true, nav1 := .loaded goodHtml, nav2 := .raises,
    nav3 := .raises, cookieReread := some goodHtml, extractRaises := true }

/-- A research world where `http://a` scrapes successfully and `http://b`
raises during extraction. -/
def researchWorldMixed : ResearchWorld :=
  { serviceOk := true
    searchResults := fun _ => ["http://a", "http://b"]
    fetchWorld := fun u => if u = "http://b" then fetchRaiseWorld else fetchOkWorld
    timedOut := fun _ => false }

/-- The filtered candidate URLs used by the partial-failure witnesses. -/
def urlsMixed : List String := ["http://a", "http://b"]

/-- Three successful batch-runner tasks (witness fixture). -/
def batchTasksOk : List (Except String Nat) :=
  [Except.ok 1, Except.ok 2, Except.ok 3]

/-! ## Helper lemmas: whitespace normalization -/

theorem hasWSRun_tail {c : Char} {cs : List Char}
    (h : hasWSRun (c :: cs) = false) : hasWSRun cs = false := by
  cases cs with
  | nil => rfl
  | cons d t =>
    simp only [hasWSRun, Bool.or_eq_false_iff] at h
    exact h.2

theorem collapseAux_ws_props (l : List Char) :
    hasWSRun (collapseAux l false) = false ∧
    hasWSRun (collapseAux l true) = false ∧
    headNotWS (collapseAux l true) = true := by
  induction l with
  | nil => exact ⟨rfl, rfl, rfl⟩
  | cons c cs ih =>
    obtain ⟨ih1, ih2, ih3⟩ := ih
    by_cases hc : pyIsSpace c = true
    · refine ⟨?_, ?_, ?_⟩
      · simp only [collapseAux, hc, if_true]
        cases hrec : collapseAux cs true with
        | nil => rfl
        | cons d t =>
          have hd : pyIsSpace d = false := by
            rw [hrec] at ih3
            simpa [headNotWS] using ih3
          rw [hrec] at ih2
          simp [hasWSRun, hd, ih2]
      · simp only [collapseAux, hc, if_true]
        exact ih2
      · simp only [collapseAux, hc, if_true]
        exact ih3
    · have hc' : pyIsSpace c = false := by simpa using hc
      have hcons : hasWSRun (c :: collapseAux cs false) = false := by
        cases hrec : collapseAux cs false with
        | nil => rfl
        | cons d t =>
          rw [hrec] at ih1
          simp [hasWSRun, hc', ih1]
      refine ⟨?_, ?_, ?_⟩
      · simp only [collapseAux, hc', if_false, Bool.false_eq_true]
        exact hcons
      · simp only [collapseAux, hc', if_false, Bool.false_eq_true]
        exact hcons
      · simp only [collapseAux, hc', if_false, Bool.false_eq_true, headNotWS]
        simp [hc']

theorem headNotWS_dropWhile (l : List Char) :
    headNotWS (l.dropWhile pyIsSpace) = true := by
  induction l with
  | nil => rfl
  | cons c cs ih =>
    rw [List.dropWhile_cons]
    by_cases hc : pyIsSpace c = true
    · simpa [hc] using ih
    · simp [hc, headNotWS]

theorem hasWSRun_dropWhile (p : Char → Bool) (l : List Char)
    (h : hasWSRun l = false) : hasWSRun (l.dropWhile p) = false := by
  induction l with
  | nil => exact h
  | cons c cs ih =>
    rw [List.dropWhile_cons]
    by_cases hc : p c = true
    · simp only [hc, if_true]
      exact ih (hasWSRun_tail h)
    · simp only [hc, if_false, Bool.false_eq_true]
      exact h

theorem headNotWS_pyDropTrailing (l : List Char)
    (h : headNotWS l = true) : headNotWS (pyDropTrailing l) = true := by
  cases l with
  | nil => rfl
  | cons c cs =>
    simp only [pyDropTrailing]
    cases pyDropTrailing cs with
    | nil =>
      by_cases hc : pyIsSpace c = true
      · simp [hc, headNotWS]
      · simp [hc, headNotWS]
    | cons d ds =>
      simpa [headNotWS] using h

theorem hasWSRun_pyDropTrailing (l : List Char)
    (h : hasWSRun l = false) : hasWSRun (pyDropTrailing l) = false := by
  induction l with
  | nil => rfl
  | cons c cs ih =>
    have ih' := ih (hasWSRun_tail h)
    cases cs with
    | nil =>
      simp only [pyDropTrailing]
      by_cases hc : pyIsSpace c = true <;> simp [hc, hasWSRun]
    | cons e es =>
      simp only [pyDropTrailing] at ih' ⊢
      cases hr : (match pyDropTrailing es with
        | [] => if pyIsSpace e then [] else [e]
        | d :: ds => e :: d :: ds : List Char) with
      | nil =>
        by_cases hc : pyIsSpace c = true <;> simp [hc, hasWSRun]
      | cons d ds =>
        have hde : d = e := by
          cases hres : pyDropTrailing es with
          | nil =>
            rw [hres] at hr
            by_cases he : pyIsSpace e = true
            · simp [he] at hr
            · simp [he] at hr
              exact (hr.1).symm
          | cons f fs =>
            rw [hres] at hr
            exact (List.cons.injEq _ _ _ _ ▸ hr).1.symm
        rw [hr] at ih'
        subst hde
        have h1 : (pyIsSpace c && pyIsSpace d) = false := by
          simp only [hasWSRun, Bool.or_eq_false_iff] at h
          exact h.1
        simp [hasWSRun, h1, ih']

theorem lastNotWS_pyDropTrailing (l : List Char) :
    lastNotWS (pyDropTrailing l) = true := by
  induction l with
  | nil => rfl
  | cons c cs ih =>
    simp only [pyDropTrailing]
    cases hr : pyDropTrailing cs with
    | nil =>
      by_cases hc : pyIsSpace c = true <;> simp [hc, lastNotWS]
    | cons d ds =>
      rw [hr] at ih
      simpa [lastNotWS] using ih

theorem collapseAndStrip_props (l : List Char) :
    hasWSRun (collapseAndStrip l) = false ∧
    headNotWS (collapseAndStrip l) = true ∧
    lastNotWS (collapseAndStrip l) = true := by
  unfold collapseAndStrip pyStrip pyDropLeading
  obtain ⟨h1, -, -⟩ := collapseAux_ws_props l
  exact ⟨hasWSRun_pyDropTrailing _ (hasWSRun_dropWhile _ _ h1),
    headNotWS_pyDropTrailing _ (headNotWS_dropWhile _),
    lastNotWS_pyDropTrailing _⟩

/-! ## Helper lemmas: selector loop -/

theorem selectLoop_no_pass (doc : Forest) (sels : List Selector)
    (lastSel : Selector)
    (h : ∀ sel ∈ sels, ∀ el, selectOneIn sel doc = some el →
      nodeTextLen el ≤ 300) :
    selectLoop doc (sels ++ [lastSel]) = selectOneIn lastSel doc := by
  induction sels with
  | nil => rfl
  | cons s rest ih =>
    have hs := h s (List.mem_cons_self s rest)
    have hrest : ∀ sel ∈ rest, ∀ el, selectOneIn sel doc = some el →
        nodeTextLen el ≤ 300 :=
      fun sel hm => h sel (List.mem_cons_of_mem s hm)
    have ih' := ih hrest
    cases rest with
    | nil =>
      cases hsel : selectOneIn s doc with
      | none => simp [selectLoop, hsel]
      | some el =>
        have hle : ¬ 300 < nodeTextLen el := by
          have := hs el hsel
          omega
        simp [selectLoop, hsel, hle]
    | cons s₂ rest₂ =>
      simp only [List.cons_append] at ih' ⊢
      cases hsel : selectOneIn s doc with
      | none => simp [selectLoop, hsel, ih']
      | some el =>
        have hle : ¬ 300 < nodeTextLen el := by
          have := hs el hsel
          omega
        simp [selectLoop, hsel, hle, ih']

theorem contentSelectors_split :
    contentSelectorsInit ++ [Selector.byId "wrapper"] = contentSelectors := rfl

/-! ## Helper lemmas: extraction bounds and scrape outcomes -/

theorem extract_bounds (doc : Forest) (url : String) :
    extractTextContentEnhanced doc url = "" ∨
    (200 ≤ (extractTextContentEnhanced doc url).length ∧
     (extractTextContentEnhanced doc url).length ≤ 50000) := by
  unfold extractTextContentEnhanced
  by_cases h : (cleanedTextOf doc).length < 200
  · left
    rw [if_pos h]
  · right
    rw [if_neg h]
    have hlen : (⟨(cleanedTextOf doc).take 50000⟩ : String).length
        = ((cleanedTextOf doc).take 50000).length := rfl
    rw [hlen, List.length_take]
    omega

theorem scrapeSingleResult_shape (w : FetchWorld) (url : String) :
    scrapeSingleResult w url = .ok "" ∨ scrapeSingleResult w url = .error () ∨
    ∃ doc, scrapeSingleResult w url =
      .ok (extractTextContentEnhanced doc url) := by
  unfold scrapeSingleResult
  by_cases hl : w.launchOk = true
  · rw [if_pos hl]
    cases fallbackLoop w.strategies with
    | error e => left; rfl
    | ok page =>
      dsimp only
      by_cases h1 : page.raw.isEmpty = true
      · rw [if_pos h1]; left; rfl
      · rw [if_neg h1]
        cases hcr : w.cookieReread with
        | some h2 =>
          simp only
          by_cases h3 : h2.raw.isEmpty = true
          · rw [if_pos h3]; left; rfl
          · rw [if_neg h3]
            by_cases h4 : w.extractRaises = true
            · rw [if_pos h4]; right; left; rfl
            · rw [if_neg h4]; right; right; exact ⟨h2.doc, rfl⟩
        | none =>
          simp only
          by_cases h3 : page.raw.isEmpty = true
          · rw [if_pos h3]; left; rfl
          · rw [if_neg h3]
            by_cases h4 : w.extractRaises = true
            · rw [if_pos h4]; right; left; rfl
            · rw [if_neg h4]; right; right; exact ⟨page.doc, rfl⟩
  · rw [if_neg hl]; left; rfl

theorem accepted_scrape_bounds {w : FetchWorld} {tmo : Bool} {url s : String}
    (h : acceptedContent (scrapeUrlContent w tmo url) = some s) :
    200 ≤ s.length ∧ s.length ≤ 50000 := by
  unfold scrapeUrlContent at h
  by_cases ht : tmo = true
  · rw [if_pos ht, show acceptedContent (Except.ok "") = none from rfl] at h
    exact Option.noConfusion h
  · rw [if_neg ht] at h
    rcases scrapeSingleResult_shape w url with hsh | hsh | ⟨doc, hsh⟩
    · rw [hsh, show acceptedContent (Except.ok "") = none from rfl] at h
      exact Option.noConfusion h
    · rw [hsh, show acceptedContent (Except.error ()) = none from rfl] at h
      exact Option.noConfusion h
    · rw [hsh] at h
      unfold acceptedContent at h
      dsimp only at h
      by_cases he : (extractTextContentEnhanced doc url).isEmpty = true
      · rw [if_pos he] at h
        exact Option.noConfusion h
      · rw [if_neg he] at h
        rcases extract_bounds doc url with hz | hb
        · rw [hz] at he
          exact absurd rfl he
        · have hs : extractTextContentEnhanced doc url = s := Option.some.inj h
          rw [hs] at hb
          exact hb

/-! ## Helper lemmas: batch runner -/

theorem gatherStrict_cons_ok {α : Type} (x : α) (rs : List (Except String α)) :
    gatherStrict (Except.ok x :: rs) =
      match gatherStrict rs with
      | .error e => Except.error e
      | .ok l => Except.ok (x :: l) := rfl

theorem gatherStrict_append {α : Type} (a b : List (Except String α)) :
    gatherStrict (a ++ b) = exceptSeqAppend (gatherStrict a) (gatherStrict b) := by
  induction a with
  | nil =>
    show gatherStrict b = exceptSeqAppend (Except.ok []) (gatherStrict b)
    cases gatherStrict b with
    | error e => rfl
    | ok lb => rfl
  | cons r rs ih =>
    cases r with
    | error e => simp [gatherStrict, exceptSeqAppend]
    | ok x =>
      rw [List.cons_append, gatherStrict_cons_ok, gatherStrict_cons_ok, ih]
      cases hrs : gatherStrict rs with
      | error e => simp [exceptSeqAppend]
      | ok lrs =>
        cases hb : gatherStrict b with
        | error e => simp [exceptSeqAppend]
        | ok lb => simp [exceptSeqAppend]

theorem runBatches_cons {α : Type} (c : List (Except String α))
    (cs : List (List (Except String α))) :
    runBatches (c :: cs) = exceptSeqAppend (gatherStrict c) (runBatches cs) := by
  cases hg : gatherStrict c with
  | error e => simp [runBatches, hg, exceptSeqAppend]
  | ok l =>
    cases hr : runBatches cs with
    | error e => simp [runBatches, hg, hr, exceptSeqAppend]
    | ok rest => simp [runBatches, hg, hr, exceptSeqAppend]

theorem runBatches_chunkAux {α : Type} (fuel : Nat) :
    ∀ (bs : Nat) (l : List (Except String α)), 0 < bs → l.length ≤ fuel →
    runBatches (chunkAux fuel bs l) = gatherStrict l := by
  induction fuel with
  | zero =>
    intro bs l _ hl
    have hnil : l = [] := List.eq_nil_of_length_eq_zero (Nat.le_zero.mp hl)
    subst hnil
    rfl
  | succ n ih =>
    intro bs l hbs hl
    cases l with
    | nil => rfl
    | cons x xs =>
      show runBatches ((x :: xs).take bs :: chunkAux n bs ((x :: xs).drop bs)) = _
      rw [runBatches_cons]
      rw [ih bs ((x :: xs).drop bs) hbs (by
        rw [List.length_drop]
        simp only [List.length_cons] at hl ⊢
        omega)]
      rw [← gatherStrict_append, List.take_append_drop]

theorem gatherStrict_all_ok {α : Type} (l : List (Except String α))
    (h : ∀ t ∈ l, exceptIsOk t = true) :
    gatherStrict l = .ok (okValues l) := by
  induction l with
  | nil => rfl
  | cons r rs ih =>
    cases r with
    | error e =>
      have := h _ (List.mem_cons_self _ _)
      simp [exceptIsOk] at this
    | ok x =>
      have ihe := ih fun t ht => h t (List.mem_cons_of_mem _ ht)
      simp only [gatherStrict, ihe]
      simp [okValues, List.filterMap_cons]

theorem gatherStrict_has_error {α : Type} (l : List (Except String α))
    (t₀ : Except String α) (hm : t₀ ∈ l) (he : exceptIsOk t₀ = false) :
    exceptIsOk (gatherStrict l) = false := by
  induction l with
  | nil => cases hm
  | cons r rs ih =>
    cases r with
    | error e => simp [gatherStrict, exceptIsOk]
    | ok x =>
      rcases List.mem_cons.mp hm with h1 | h1
      · rw [h1] at he
        simp [exceptIsOk] at he
      · have hrs := ih h1
        simp only [gatherStrict]
        cases hg : gatherStrict rs with
        | error e => simp [exceptIsOk]
        | ok lrs =>
          rw [hg] at hrs
          simp [exceptIsOk] at hrs

/-! ## Helper lemmas: semaphore counting -/

theorem countActive_replicate_pending (n : Nat) :
    countActive (List.replicate n .pending) = 0 := by
  induction n with
  | zero => rfl
  | succ m ih => simpa [List.replicate, countActive] using ih

theorem countActive_set_active (s : List TaskPhase) (i : Nat)
    (hp : s.get? i = some .pending) :
    countActive (s.set i .active) = countActive s + 1 := by
  induction s generalizing i with
  | nil => simp at hp
  | cons a t ih =>
    cases i with
    | zero =>
      have ha : a = .pending := by
        have : some a = some TaskPhase.pending := hp
        exact Option.some.inj this
      subst ha
      simp [List.set, countActive]
    | succ j =>
      have hp' : t.get? j = some .pending := hp
      show countActive (a :: t.set j .active) = countActive (a :: t) + 1
      cases a <;> simp [countActive, ih j hp']

theorem countActive_set_finished (s : List TaskPhase) (i : Nat)
    (ha : s.get? i = some .active) :
    countActive s = countActive (s.set i .finished) + 1 := by
  induction s generalizing i with
  | nil => simp at ha
  | cons a t ih =>
    cases i with
    | zero =>
      have haa : a = .active := by
        have : some a = some TaskPhase.active := ha
        exact Option.some.inj this
      subst haa
      simp [List.set, countActive]
    | succ j =>
      have ha' : t.get? j = some .active := ha
      show countActive (a :: t) = countActive (a :: t.set j .finished) + 1
      cases a <;> simp [countActive, ih j ha']

/-! ## Helper lemmas: fetcher navigation -/

theorem fallbackAttempts_pos (o : NavOutcome) (rest : List NavOutcome) :
    1 ≤ fallbackAttempts (o :: rest) := by
  cases o with
  | raises =>
    simp only [fallbackAttempts]
    split <;> omega
  | loaded page =>
    simp only [fallbackAttempts]
    split <;> omega

/-! ## C9 — URL Filter idempotence -/

/-- C9: for every set of URLs and every pair of ignore-lists, applying the
URL Filter to its own output with the same ignore-lists yields the same
result as applying it once. -/
theorem urlFilter_idempotent (exts doms : List String) (urls : List String) :
    urlFilter exts doms (urlFilter exts doms urls) = urlFilter exts doms urls := by
  simp [urlFilter, List.filter_filter]

/-! ## C7 — blocked resource types -/

/-- C7 counterexample: the spec's blocked set contains `stylesheet`, but the
code's route handler lets a `stylesheet` request continue — the set literal
at line 207 omits `"stylesheet"`. -/
theorem routeHandler_stylesheet_cex :
    defensiveRouteHandler "stylesheet" = RouteAction.cont ∧
    "stylesheet" ∈ specBlockedResourceTypes := by
  decide

/-- C7 (amended): an intercepted request is aborted if and only if its
resource type is one of `image`, `font`, `media`, `websocket` (the code
does not block `stylesheet`); every other resource type continues. -/
theorem routeHandler_blocked_iff (resourceType : String) :
    defensiveRouteHandler resourceType = RouteAction.abort ↔
      (resourceType = "image" ∨ resourceType = "font" ∨
       resourceType = "media" ∨ resourceType = "websocket") := by
  have hmem : blockedResourceTypes.contains resourceType = true ↔
      (resourceType = "image" ∨ resourceType = "font" ∨
       resourceType = "media" ∨ resourceType = "websocket") := by
    rw [List.elem_iff]
    simp [blockedResourceTypes]
  constructor
  · intro h
    by_cases hc : blockedResourceTypes.contains resourceType = true
    · exact hmem.mp hc
    · simp [defensiveRouteHandler, hc] at h
      exact absurd (List.elem_iff.mpr h) hc
  · intro h
    simp [defensiveRouteHandler]
    exact List.elem_iff.mp (hmem.mpr h)

/-! ## C6 — extraction minimum-length floor -/

/-- C6: whenever the whitespace-normalized, junk-stripped text of an HTML
input is shorter than 200 characters, the Content Extractor returns the
empty string. -/
theorem extract_below_threshold_empty (doc : Forest) (url : String)
    (h : (cleanedTextOf doc).length < 200) :
    extractTextContentEnhanced doc url = "" := by
  unfold extractTextContentEnhanced
  rw [if_pos h]

/-- C6 witness: the empty document's cleaned text has length 0 and is
rejected. -/
theorem extract_below_threshold_empty_witness :
    (cleanedTextOf .nil).length < 200 ∧ extractTextContentEnhanced .nil "u" = "" :=
  ⟨by decide, extract_below_threshold_empty .nil "u" (by decide)⟩

/-! ## C8 — whitespace normalization of extracted text -/

/-- C8 counterexample: a document whose text contains `Subscribe` in the
middle.  The junk-phrase `re.sub` (line 187) runs after the whitespace
collapse (line 186), so deleting the phrase glues its two surrounding
single spaces into a double space; the extractor returns a non-empty text
containing a whitespace run. -/
theorem extract_whitespace_run_cex :
    extractTextContentEnhanced docSubscribe "u" ≠ "" ∧
    hasWSRun (extractTextContentEnhanced docSubscribe "u").toList = true := by
  decide

/-- C8 (amended): the non-empty text returned by the Content Extractor has
no whitespace run, no leading and no trailing whitespace, provided no junk
phrase (`Share:`, `Follow us:`, `Subscribe`, `Newsletter`) occurs in the
whitespace-collapsed text (equivalently, phrase removal leaves it
unchanged) and that text is at most 50000 characters (so truncation cannot
cut right after a space).  Without the first proviso the phrase `re.sub`,
running after the collapse, can reintroduce double or leading/trailing
whitespace. -/
theorem extract_whitespace_normalized (doc : Forest) (url : String)
    (h1 : removeJunkPhrases (collapsedTextOf doc) = collapsedTextOf doc)
    (h2 : (collapsedTextOf doc).length ≤ 50000) :
    hasWSRun (extractTextContentEnhanced doc url).toList = false ∧
    headNotWS (extractTextContentEnhanced doc url).toList = true ∧
    lastNotWS (extractTextContentEnhanced doc url).toList = true := by
  have hprops : hasWSRun (collapsedTextOf doc) = false ∧
      headNotWS (collapsedTextOf doc) = true ∧
      lastNotWS (collapsedTextOf doc) = true :=
    collapseAndStrip_props _
  have hclean : cleanedTextOf doc = collapsedTextOf doc := h1
  unfold extractTextContentEnhanced
  rw [hclean]
  generalize hgen : collapsedTextOf doc = L at h2 hprops ⊢
  by_cases hlen : L.length < 200
  · rw [if_pos hlen]
    exact ⟨rfl, rfl, rfl⟩
  · rw [if_neg hlen]
    rw [List.take_of_length_le h2]
    have htl : (⟨L⟩ : String).toList = L := rfl
    rw [htl]
    exact hprops

/-- C8 witness: a plain long document with no junk phrase satisfies both
provisos, and its extracted text is whitespace-normalized. -/
theorem extract_whitespace_normalized_witness :
    removeJunkPhrases (collapsedTextOf docPlain) = collapsedTextOf docPlain ∧
    (collapsedTextOf docPlain).length ≤ 50000 ∧
    (hasWSRun (extractTextContentEnhanced docPlain "u").toList = false ∧
     headNotWS (extractTextContentEnhanced docPlain "u").toList = true ∧
     lastNotWS (extractTextContentEnhanced docPlain "u").toList = true) :=
  ⟨by decide, by decide,
    extract_whitespace_normalized docPlain "u" (by decide) (by decide)⟩

/-! ## C5 — fallback to the full document -/

/-- C5 counterexample: a document whose only selector match is a `#wrapper`
element with short text, plus long text outside it.  No selector passes the
300-character bar, yet the extractor does NOT work on the full document:
the loop variable keeps the last `soup.select_one("#wrapper")` result
(line 127 reassigns `main_content` on every iteration), so extraction runs
on the short `#wrapper` subtree and returns `""`, while full-document
extraction would return the long text. -/
theorem extract_stale_wrapper_cex :
    selectorPassesNone docWrapper = true ∧
    extractTextContentEnhanced docWrapper "u" ≠ extractFromFullDocument docWrapper ∧
    extractTextContentEnhanced docWrapper "u" = "" := by
  decide

/-- C5 (amended): when no content-container selector matches an element
whose stripped text exceeds 300 characters AND the final selector
`#wrapper` matches nothing, the Content Extractor performs junk removal
and text extraction on the full document.  (If `#wrapper` does match, its
stale match is used instead — the behavior the counterexample exhibits.) -/
theorem extract_fallback_full_document (doc : Forest) (url : String)
    (h1 : selectorPassesNone doc = true)
    (h2 : (selectOneIn (Selector.byId "wrapper") doc).isNone = true) :
    extractTextContentEnhanced doc url = extractFromFullDocument doc := by
  have hnp : ∀ sel ∈ contentSelectors, ∀ el,
      selectOneIn sel doc = some el → nodeTextLen el ≤ 300 := by
    intro sel hm el hel
    have hall := List.all_eq_true.mp h1 sel hm
    rw [hel] at hall
    dsimp only at hall
    exact of_decide_eq_true hall
  have hsub : ∀ sel ∈ contentSelectorsInit, ∀ el,
      selectOneIn sel doc = some el → nodeTextLen el ≤ 300 := by
    intro sel hm
    have hm2 : sel ∈ contentSelectorsInit ++ [Selector.byId "wrapper"] :=
      List.mem_append_left _ hm
    rw [contentSelectors_split] at hm2
    exact hnp sel hm2
  have hloop : selectLoop doc contentSelectors =
      selectOneIn (Selector.byId "wrapper") doc := by
    rw [← contentSelectors_split]
    exact selectLoop_no_pass doc contentSelectorsInit _ hsub
  have hnone : selectOneIn (Selector.byId "wrapper") doc = none :=
    Option.isNone_iff_eq_none.mp h2
  have htarget : targetOf doc = doc := by
    unfold targetOf
    rw [hloop, hnone]
  have hcl : cleanedTextOf doc = fullCleanedTextOf doc := by
    unfold cleanedTextOf collapsedTextOf fullCleanedTextOf
    rw [htarget]
  unfold extractTextContentEnhanced extractFromFullDocument
  rw [hcl]


/-- C5 witness: a document with no elements at all falls back to the full
document, and selector- and full-document extraction agree. -/
theorem extract_fallback_full_document_witness :
    selectorPassesNone docPlain = true ∧
    (selectOneIn (Selector.byId "wrapper") docPlain).isNone = true ∧
    extractTextContentEnhanced docPlain "uw" = extractFromFullDocument docPlain :=
  ⟨by decide, by decide,
    extract_fallback_full_document docPlain "uw" (by decide) (by decide)⟩

/-! ## C3 — URL-scheme validation in the fetcher -/

/-- C3 counterexample: for the malformed URL `ftp://bad` (which starts with
neither `http://` nor `https://`), the fetch does NOT return the empty
string immediately: no scheme check exists anywhere in
`_scrape_single_url_enhanced`, so in a world where the browser launches and
navigation yields content, a browser session is created, a navigation is
attempted, and a non-empty extraction is returned. -/
theorem scrapeSingleUrl_scheme_cex :
    exactLeads "http://".toList "ftp://bad".toList = false ∧
    exactLeads "https://".toList "ftp://bad".toList = false ∧
    (scrapeSingleUrlEnhanced fetchOkWorld "ftp://bad").browserLaunched = true ∧
    (scrapeSingleUrlEnhanced fetchOkWorld "ftp://bad").navAttempts = 1 ∧
    (scrapeSingleUrlEnhanced fetchOkWorld "ftp://bad").result =
      .ok (repChar 250) ∧
    repChar 250 ≠ "" :=
  ⟨by decide, by decide, rfl, rfl, rfl, by decide⟩

/-- C3 (amended): the fetcher performs no URL validation at all — its
behavior is independent of the URL string (in particular of its scheme),
and whenever the browser launch succeeds it creates a session and attempts
at least one navigation, whatever the URL looks like.  A malformed URL
yields an empty result only when every navigation strategy fails, not via
any immediate rejection. -/
theorem scrapeSingleUrl_ignores_scheme (w : FetchWorld) (url₁ url₂ : String)
    (h : w.launchOk = true) :
    scrapeSingleUrlEnhanced w url₁ = scrapeSingleUrlEnhanced w url₂ ∧
    (scrapeSingleUrlEnhanced w url₁).browserLaunched = true ∧
    1 ≤ (scrapeSingleUrlEnhanced w url₁).navAttempts := by
  refine ⟨rfl, h, ?_⟩
  show 1 ≤ (if w.launchOk = true then fallbackAttempts w.strategies else 0)
  rw [if_pos h]
  show 1 ≤ fallbackAttempts (w.nav1 :: [w.nav2, w.nav3])
  exact fallbackAttempts_pos _ _

/-- C3 amended-claim witness at a concrete world and URLs. -/
theorem scrapeSingleUrl_ignores_scheme_witness :
    fetchOkWorld.launchOk = true ∧
    (scrapeSingleUrlEnhanced fetchOkWorld "ftp://other" =
       scrapeSingleUrlEnhanced fetchOkWorld "https://ok" ∧
     (scrapeSingleUrlEnhanced fetchOkWorld "ftp://other").browserLaunched = true ∧
     1 ≤ (scrapeSingleUrlEnhanced fetchOkWorld "ftp://other").navAttempts) :=
  ⟨rfl, scrapeSingleUrl_ignores_scheme fetchOkWorld "ftp://other" "https://ok" rfl⟩

/-! ## C1 — partial-failure resilience of the Scrape Orchestrator -/

/-- C1: for every list of filtered candidate URLs on which at least one
URL's fetch+extract yields accepted (non-empty) content, the orchestrator's
gather stage returns exactly the accepted contents of the succeeding subset
(in order), and in particular a non-empty list.  Failing, timed-out and
raising URLs contribute nothing: a raised exception becomes a value under
`return_exceptions=True` and is filtered out, never propagating — the
gather stage is a total function of the per-URL outcomes.  -/
theorem gatherScrapedContents_partial_success (w : ResearchWorld)
    (urls : List String)
    (h : ∃ u ∈ urls, acceptedContent (scrapeWithSemaphore w u) ≠ none) :
    gatherScrapedContents (urls.map (scrapeWithSemaphore w)) =
      urls.filterMap (fun u => acceptedContent (scrapeWithSemaphore w u)) ∧
    gatherScrapedContents (urls.map (scrapeWithSemaphore w)) ≠ [] := by
  have heq : gatherScrapedContents (urls.map (scrapeWithSemaphore w)) =
      urls.filterMap (fun u => acceptedContent (scrapeWithSemaphore w u)) := by
    unfold gatherScrapedContents
    rw [List.filterMap_map]
    rfl
  refine ⟨heq, ?_⟩
  obtain ⟨u, hu, hacc⟩ := h
  cases hs : acceptedContent (scrapeWithSemaphore w u) with
  | none => exact absurd hs hacc
  | some s =>
    rw [heq]
    exact List.ne_nil_of_mem (List.mem_filterMap.mpr ⟨u, hu, hs⟩)

/-- C1 witness: two filtered URLs, one scraping successfully and the other
raising during extraction; the gather stage returns the single success. -/
theorem gatherScrapedContents_partial_success_witness :
    (∃ u ∈ urlsMixed,
      acceptedContent (scrapeWithSemaphore researchWorldMixed u) ≠ none) ∧
    gatherScrapedContents
      (urlsMixed.map (scrapeWithSemaphore researchWorldMixed)) ≠ [] :=
  ⟨by decide,
    (gatherScrapedContents_partial_success researchWorldMixed urlsMixed
      (by decide)).2⟩

/-! ## C10 — length bounds of returned documents -/

/-- C10: every string returned by `gather_research_documents` is non-empty,
at least 200 characters (the extraction floor) and at most 50000 characters
(the truncation bound). -/
theorem gatherResearchDocuments_length_bounds (w : ResearchWorld)
    (queries : List String) (s : String)
    (hs : s ∈ gatherResearchDocuments w queries) :
    200 ≤ s.length ∧ s.length ≤ 50000 := by
  unfold gatherResearchDocuments at hs
  by_cases h1 : queries.isEmpty = true
  · rw [if_pos h1] at hs
    exact absurd hs (List.not_mem_nil s)
  · rw [if_neg h1] at hs
    by_cases h2 : (!w.serviceOk) = true
    · rw [if_pos h2] at hs
      exact absurd hs (List.not_mem_nil s)
    · rw [if_neg h2] at hs
      by_cases h3 : (allCandidateUrls w queries).isEmpty = true
      · rw [if_pos h3] at hs
        exact absurd hs (List.not_mem_nil s)
      · rw [if_neg h3] at hs
        by_cases h4 : (filteredCandidateUrls w queries).isEmpty = true
        · rw [if_pos h4] at hs
          exact absurd hs (List.not_mem_nil s)
        · rw [if_neg h4] at hs
          unfold gatherScrapedContents at hs
          rw [List.filterMap_map] at hs
          obtain ⟨u, hu, hacc⟩ := List.mem_filterMap.mp hs
          have hacc2 : acceptedContent
              (scrapeUrlContent (w.fetchWorld u) (w.timedOut u) u) = some s := hacc
          exact accepted_scrape_bounds hacc2

/-- C10 witness: a concrete run returning one 250-character document. -/
theorem gatherResearchDocuments_length_bounds_witness :
    repChar 250 ∈ gatherResearchDocuments researchWorldMixed ["q"] ∧
    200 ≤ (repChar 250).length ∧ (repChar 250).length ≤ 50000 :=
  ⟨by decide,
    gatherResearchDocuments_length_bounds researchWorldMixed ["q"] (repChar 250)
      (by decide)⟩

/-! ## C4 — Batch Runner error handling -/

/-- C4 counterexample: with tasks `[ok 1, error "boom"]` in one batch of
two, the Batch Runner does not return an ordered sequence carrying the
error at position 1 and the value 1 at position 0 — `asyncio.gather` runs
without `return_exceptions`, so the whole call raises and no result
sequence is produced at all. -/
theorem runTasksInBatches_error_propagates_cex :
    runTasksInBatches [Except.ok 1, Except.error "boom"] 2 61 =
      Except.error "boom" ∧
    exceptIsOk (runTasksInBatches [Except.ok 1, Except.error "boom"] 2 61) =
      false :=
  ⟨rfl, rfl⟩

/-- C4 (amended): for a positive batch size, the Batch Runner is
value-equivalent to gathering the whole task list strictly in order: when
every task succeeds it returns all results in task order, and when any task
fails the exception propagates out of `_run_tasks_in_batches` — no result
sequence (and no per-position error value) is returned. -/
theorem runTasksInBatches_order_and_errors {α : Type}
    (tasks : List (Except String α)) (batchSize delaySeconds : Nat)
    (hbs : 0 < batchSize) :
    runTasksInBatches tasks batchSize delaySeconds = gatherStrict tasks ∧
    ((∀ t ∈ tasks, exceptIsOk t = true) →
      runTasksInBatches tasks batchSize delaySeconds =
        .ok (okValues tasks)) ∧
    (∀ t ∈ tasks, exceptIsOk t = false →
      exceptIsOk (runTasksInBatches tasks batchSize delaySeconds) = false) := by
  have hmain : runTasksInBatches tasks batchSize delaySeconds =
      gatherStrict tasks := by
    unfold runTasksInBatches chunkList
    exact runBatches_chunkAux tasks.length batchSize tasks hbs (le_refl _)
  refine ⟨hmain, ?_, ?_⟩
  · intro hall
    rw [hmain]
    exact gatherStrict_all_ok tasks hall
  · intro t ht hf
    rw [hmain]
    exact gatherStrict_has_error tasks t ht hf

/-- C4 amended-claim witness at a concrete all-success task list. -/
theorem runTasksInBatches_order_and_errors_witness :
    0 < 2 ∧
    (runTasksInBatches batchTasksOk 2 61 = gatherStrict batchTasksOk ∧
     ((∀ t ∈ batchTasksOk, exceptIsOk t = true) →
       runTasksInBatches batchTasksOk 2 61 = .ok (okValues batchTasksOk)) ∧
     (∀ t ∈ batchTasksOk, exceptIsOk t = false →
       exceptIsOk (runTasksInBatches batchTasksOk 2 61) = false)) :=
  ⟨by decide,
    runTasksInBatches_order_and_errors batchTasksOk 2 61 (by decide)⟩

/-! ## C2 — bounded scrape concurrency -/

/-- C2: in every reachable state of the scraping stage — for every number
of filtered URLs and every interleaving of semaphore acquisitions and task
completions — the number of concurrently in-flight per-URL scrape
operations never exceeds `asyncio.Semaphore(4)`'s limit. -/
theorem scrapeConcurrency_bounded (n : Nat) (s : List TaskPhase)
    (h : ScrapeReach n s) : countActive s ≤ scrapeConcurrencyLimit := by
  induction h with
  | init =>
    rw [countActive_replicate_pending]
    exact Nat.zero_le _
  | step hprev hstep ih =>
    cases hstep with
    | acquire i hp hc =>
      rw [countActive_set_active _ i hp]
      omega
    | release i ha =>
      have heq := countActive_set_finished _ i ha
      omega

/-- C2 witness: a concrete reachable state of two tasks with one holding
the semaphore. -/
theorem scrapeConcurrency_bounded_witness :
    countActive [TaskPhase.active, TaskPhase.pending] ≤ scrapeConcurrencyLimit :=
  scrapeConcurrency_bounded 2 [TaskPhase.active, TaskPhase.pending]
    (ScrapeReach.step ScrapeReach.init
      (ScrapeStep.acquire (List.replicate 2 .pending) 0 (by decide) (by decide)))

end TrendAssistant
